import Mathlib

/-!
# Verification of the TownNews collection/normalization pipeline

Shallow embedding of the repository's three source files:

* `collect_news.py`   — fetch loop over domains (delay after every domain).
* `nodriver_helper.py` — `extract_json_from_content`, `fetch_json_from_urls`.
* `normalize_news.py` — `get_url_hash`, `normalize_article`,
  `normalize_townnews_file` (per-record loop with statistics counters).

Python values flowing through the pipeline are modelled by a `Json` value
type; Python truthiness, `dict.get`, iteration and `or` are modelled
explicitly.  External libraries (`dateutil`, `markdownify`, `html.unescape`)
are modelled as explicit function parameters; `hashlib.md5` is modelled by a
full MD5 implementation over `Nat` arithmetic.
-/

set_option autoImplicit false

/-- A JSON-like Python value (the result of `json.loads`).  Numbers keep
their source lexeme (the claims under verification never depend on numeric
value semantics beyond integer conversion). -/
inductive Json where
  | null : Json
  | bool (b : Bool) : Json
  | num (lexeme : String) : Json
  | str (s : String) : Json
  | arr (xs : List Json) : Json
  | obj (kvs : List (String × Json)) : Json
deriving Repr, Inhabited

mutual

/-- Structural equality on `Json`, modelling Python `==` on parsed JSON
values (numeric comparison is by lexeme: the records under verification
compare strings). -/
def Json.beq : Json → Json → Bool
  | .null, .null => true
  | .bool a, .bool b => a == b
  | .num a, .num b => a == b
  | .str a, .str b => a == b
  | .arr xs, .arr ys => Json.beqList xs ys
  | .obj xs, .obj ys => Json.beqObj xs ys
  | _, _ => false

/-- Elementwise equality of JSON arrays. -/
def Json.beqList : List Json → List Json → Bool
  | [], [] => true
  | x :: xs, y :: ys => Json.beq x y && Json.beqList xs ys
  | _, _ => false

/-- Entrywise equality of JSON objects. -/
def Json.beqObj : List (String × Json) → List (String × Json) → Bool
  | [], [] => true
  | (k1, v1) :: xs, (k2, v2) :: ys => k1 == k2 && Json.beq v1 v2 && Json.beqObj xs ys
  | _, _ => false

end

instance : BEq Json := ⟨Json.beq⟩

/-- Does a numeric lexeme denote zero?  (Python: `0`, `0.0`, `-0`, `0e5` are
falsy.)  The mantissa digits are all `0`. -/
def numLexemeIsZero (s : String) : Bool :=
  let noSign :=
    match s.data with
    | c :: rest => if c = '-' ∨ c = '+' then rest else c :: rest
    | [] => []
  let mantissa := noSign.takeWhile (fun c => c ≠ 'e' ∧ c ≠ 'E')
  mantissa.all (fun c => c = '0' ∨ c = '.')

/-- Python truthiness of a JSON value. -/
def pyTruthy : Json → Bool
  | .null => false
  | .bool b => b
  | .num s => ! numLexemeIsZero s
  | .str s => s ≠ ""
  | .arr xs => ! xs.isEmpty
  | .obj kvs => ! kvs.isEmpty

/-- Python `a or b` on JSON values: the first operand when truthy, else the
second. -/
def pyOr (a b : Json) : Json := if pyTruthy a then a else b

/-- The fields of a JSON object (a Python dict in insertion order). -/
abbrev Fields := List (String × Json)

/-- Python `dict.get(k)`: `some v` when the key is present, `none`
(Python `None`) otherwise.  First occurrence wins (objects produced by
`json.loads` have unique keys). -/
def jget (kvs : Fields) (k : String) : Option Json :=
  match kvs with
  | [] => none
  | (k', v) :: rest => if k' = k then some v else jget rest k

/-- Python `dict.get(k, default)`. -/
def jgetD (kvs : Fields) (k : String) (d : Json) : Json :=
  (jget kvs k).getD d

/-- Python `dict.get(k)` with the absent case mapped to `Json.null`
(Python `None`). -/
def jgetN (kvs : Fields) (k : String) : Json :=
  (jget kvs k).getD .null

/-- Python iteration over a JSON value: lists yield their elements, dicts
their keys, strings their characters (as one-character strings); any other
value is not iterable (`TypeError`, modelled as `none`). -/
def pyIter : Json → Option (List Json)
  | .arr xs => some xs
  | .obj kvs => some (kvs.map (fun kv => Json.str kv.1))
  | .str s => some (s.data.map (fun c => Json.str (String.mk [c])))
  | _ => none

/-! ## MD5 (`hashlib.md5(url.encode('utf-8')).hexdigest()`)

A direct model of the MD5 message digest over `Nat` arithmetic, with 32-bit
words represented as naturals reduced modulo `2 ^ 32`. -/

/-- `2 ^ 32`, the 32-bit word modulus. -/
def w32 : Nat := 4294967296

/-- 32-bit addition. -/
def add32 (a b : Nat) : Nat := (a + b) % w32

/-- 32-bit bitwise complement (operands are `< 2 ^ 32`). -/
def not32 (a : Nat) : Nat := 4294967295 - a

/-- 32-bit left rotation. -/
def rotl32 (x n : Nat) : Nat := (((x <<< n) % w32) ||| (x >>> (32 - n)))

/-- The MD5 per-round sine-derived constant table. -/
def md5K : List Nat :=
  [3614090360, 3905402710, 606105819, 3250441966, 4118548399, 1200080426, 2821735955, 4249261313,
   1770035416, 2336552879, 4294925233, 2304563134, 1804603682, 4254626195, 2792965006, 1236535329,
   4129170786, 3225465664, 643717713, 3921069994, 3593408605, 38016083, 3634488961, 3889429448,
   568446438, 3275163606, 4107603335, 1163531501, 2850285829, 4243563512, 1735328473, 2368359562,
   4294588738, 2272392833, 1839030562, 4259657740, 2763975236, 1272893353, 4139469664, 3200236656,
   681279174, 3936430074, 3572445317, 76029189, 3654602809, 3873151461, 530742520, 3299628645,
   4096336452, 1126891415, 2878612391, 4237533241, 1700485571, 2399980690, 4293915773, 2240044497,
   1873313359, 4264355552, 2734768916, 1309151649, 4149444226, 3174756917, 718787259, 3951481745]

/-- The MD5 per-round left-rotation amounts. -/
def md5S : List Nat :=
  [7, 12, 17, 22, 7, 12, 17, 22, 7, 12, 17, 22, 7, 12, 17, 22,
   5, 9, 14, 20, 5, 9, 14, 20, 5, 9, 14, 20, 5, 9, 14, 20,
   4, 11, 16, 23, 4, 11, 16, 23, 4, 11, 16, 23, 4, 11, 16, 23,
   6, 10, 15, 21, 6, 10, 15, 21, 6, 10, 15, 21, 6, 10, 15, 21]

/-- UTF-8 encoding of one character (Python `str.encode('utf-8')`). -/
def utf8EncodeChar (c : Char) : List Nat :=
  let n := c.toNat
  if n < 128 then [n]
  else if n < 2048 then [192 ||| (n >>> 6), 128 ||| (n % 64)]
  else if n < 65536 then
    [224 ||| (n >>> 12), 128 ||| ((n >>> 6) % 64), 128 ||| (n % 64)]
  else
    [240 ||| (n >>> 18), 128 ||| ((n >>> 12) % 64), 128 ||| ((n >>> 6) % 64), 128 ||| (n % 64)]

/-- UTF-8 byte sequence of a string. -/
def utf8Bytes (s : String) : List Nat :=
  s.data.flatMap utf8EncodeChar

/-- MD5 padding: append `0x80`, zero bytes to 56 mod 64, then the original
bit length as 8 little-endian bytes. -/
def md5Pad (msg : List Nat) : List Nat :=
  let len := msg.length
  let zeros := (120 - ((len + 1) % 64)) % 64
  let bitLen := (8 * len) % (2 ^ 64)
  msg ++ [128] ++ List.replicate zeros 0 ++
    ((List.range 8).map (fun i => (bitLen >>> (8 * i)) % 256))

/-- Split a byte list into 64-byte blocks. -/
def chunks64 (l : List Nat) : List (List Nat) :=
  if l.isEmpty then [] else l.take 64 :: chunks64 (l.drop 64)
termination_by l.length
decreasing_by
  simp only [List.length_drop]
  cases l with
  | nil => simp [List.isEmpty] at *
  | cons a t => simp only [List.length_cons]; omega

/-- The 16 little-endian 32-bit words of one 64-byte block. -/
def blockWords (block : List Nat) : List Nat :=
  (List.range 16).map (fun j =>
    block.getD (4 * j) 0 + 256 * block.getD (4 * j + 1) 0 +
    65536 * block.getD (4 * j + 2) 0 + 16777216 * block.getD (4 * j + 3) 0)

/-- One MD5 round: mixes round `i` into the running state `(a, b, c, d)`
using the block words `m`. -/
def md5Mix (m : List Nat) (st : Nat × Nat × Nat × Nat) (i : Nat) :
    Nat × Nat × Nat × Nat :=
  let (a, b, c, d) := st
  let (f, g) :=
    if i < 16 then ((b &&& c) ||| (not32 b &&& d), i)
    else if i < 32 then ((d &&& b) ||| (not32 d &&& c), (5 * i + 1) % 16)
    else if i < 48 then (b ^^^ c ^^^ d, (3 * i + 5) % 16)
    else (c ^^^ (b ||| not32 d), (7 * i) % 16)
  let f := add32 (add32 (add32 f a) (md5K.getD i 0)) (m.getD g 0)
  (d, add32 b (rotl32 f (md5S.getD i 0)), b, c)

/-- Process one 64-byte block into the MD5 state. -/
def md5Block (st : Nat × Nat × Nat × Nat) (block : List Nat) :
    Nat × Nat × Nat × Nat :=
  let m := blockWords block
  let (a, b, c, d) := (List.range 64).foldl (md5Mix m) st
  let (a0, b0, c0, d0) := st
  (add32 a0 a, add32 b0 b, add32 c0 c, add32 d0 d)

/-- One hexadecimal digit (lowercase, as Python's `hexdigest`). -/
def hexDigit (n : Nat) : Char :=
  if n < 10 then Char.ofNat (48 + n) else Char.ofNat (87 + n)

/-- A 32-bit word rendered as 8 hex characters, little-endian byte order. -/
def word32ToHexLE (w : Nat) : List Char :=
  (List.range 4).flatMap (fun i =>
    let byte := (w >>> (8 * i)) % 256
    [hexDigit (byte / 16), hexDigit (byte % 16)])

/-- MD5 hex digest of a string's UTF-8 bytes
(`hashlib.md5(s.encode('utf-8')).hexdigest()`). -/
def md5Hex (s : String) : String :=
  let blocks := chunks64 (md5Pad (utf8Bytes s))
  let (a, b, c, d) :=
    blocks.foldl md5Block (1732584193, 4023233417, 2562383102, 271733878)
  String.mk (word32ToHexLE a ++ word32ToHexLE b ++ word32ToHexLE c ++ word32ToHexLE d)

/-!  ## `normalize_news.get_url_hash`  -/

/-- `get_url_hash(url)` from `normalize_news.py`: `None` for a falsy URL,
otherwise the MD5 hex digest of the URL string.  A truthy non-string URL
makes `url.encode('utf-8')` raise (`AttributeError`), modelled as `.error`. -/
def get_url_hash (url : Json) : Except Unit (Option String) :=
  if pyTruthy url = false then .ok none
  else
    match url with
    | .str s => .ok (some (md5Hex s))
    | _ => .error ()

/-! ## `json.loads` model

A strict JSON parser over `List Char`, following Python's `json.loads`:
any top-level value, strict number grammar, string escapes, `NaN` and
`Infinity` accepted, only whitespace allowed after the value.  Astral
`\\u` surrogate pairs are outside the model (a lone escape produces a
single code unit). -/

/-- JSON whitespace. -/
def isJsonWs (c : Char) : Bool := c = ' ' ∨ c = '\t' ∨ c = '\n' ∨ c = '\r'

/-- Drop leading JSON whitespace. -/
def skipWs (cs : List Char) : List Char := cs.dropWhile isJsonWs

/-- ASCII decimal digit test. -/
def isDigitC (c : Char) : Bool := '0' ≤ c ∧ c ≤ '9'

/-- Hex digit value. -/
def hexVal (c : Char) : Option Nat :=
  if '0' ≤ c ∧ c ≤ '9' then some (c.toNat - 48)
  else if 'a' ≤ c ∧ c ≤ 'f' then some (c.toNat - 87)
  else if 'A' ≤ c ∧ c ≤ 'F' then some (c.toNat - 55)
  else none

/-- Parse the body of a JSON string literal (after the opening quote),
accumulating characters in reverse. -/
def parseStringBody (acc : List Char) (cs : List Char) : Option (String × List Char) :=
  match cs with
  | [] => none
  | c :: rest =>
    if c = '"' then some (String.mk acc.reverse, rest)
    else if c = '\\' then
      match rest with
      | [] => none
      | e :: rest2 =>
        if e = '"' then parseStringBody ('"' :: acc) rest2
        else if e = '\\' then parseStringBody ('\\' :: acc) rest2
        else if e = '/' then parseStringBody ('/' :: acc) rest2
        else if e = 'b' then parseStringBody (Char.ofNat 8 :: acc) rest2
        else if e = 'f' then parseStringBody (Char.ofNat 12 :: acc) rest2
        else if e = 'n' then parseStringBody ('\n' :: acc) rest2
        else if e = 'r' then parseStringBody ('\r' :: acc) rest2
        else if e = 't' then parseStringBody ('\t' :: acc) rest2
        else if e = 'u' then
          match rest2 with
          | h1 :: h2 :: h3 :: h4 :: rest3 =>
            match hexVal h1, hexVal h2, hexVal h3, hexVal h4 with
            | some a, some b, some c2, some d =>
              parseStringBody (Char.ofNat (4096 * a + 256 * b + 16 * c2 + d) :: acc) rest3
            | _, _, _, _ => none
          | _ => none
        else none
    else if c.toNat < 32 then none
    else parseStringBody (c :: acc) rest
termination_by cs.length
decreasing_by all_goals simp_arith [*]

/-- Lex the optional exponent part of a number, given the lexeme so far. -/
def lexExpPart (acc : List Char) (cs : List Char) : Option (List Char × List Char) :=
  match cs with
  | c :: t =>
    if c = 'e' ∨ c = 'E' then
      let (sgn, t1) :=
        match t with
        | s :: t' => if s = '+' ∨ s = '-' then ([s], t') else (([] : List Char), t)
        | [] => ([], t)
      let ds := t1.takeWhile isDigitC
      if ds.isEmpty then none
      else some (acc ++ [c] ++ sgn ++ ds, t1.dropWhile isDigitC)
    else some (acc, cs)
  | [] => some (acc, [])

/-- Lex the optional fraction and exponent parts of a number. -/
def lexFracExp (acc : List Char) (cs : List Char) : Option (List Char × List Char) :=
  match cs with
  | '.' :: t =>
    let ds := t.takeWhile isDigitC
    if ds.isEmpty then none
    else lexExpPart (acc ++ ['.'] ++ ds) (t.dropWhile isDigitC)
  | _ => lexExpPart acc cs

/-- Lex a JSON number (strict grammar: no leading zeros, no bare `-`). -/
def lexNumber (cs : List Char) : Option (List Char × List Char) :=
  let (sign, cs1) :=
    match cs with
    | '-' :: t => ((['-'] : List Char), t)
    | _ => ([], cs)
  match cs1 with
  | [] => none
  | c :: t =>
    if c = '0' then lexFracExp (sign ++ ['0']) t
    else if isDigitC c then
      lexFracExp (sign ++ [c] ++ t.takeWhile isDigitC) (t.dropWhile isDigitC)
    else none

mutual

/-- Parse one JSON value (fuel-indexed; `json_loads` supplies ample fuel). -/
def parseVal : Nat → List Char → Option (Json × List Char)
  | 0, _ => none
  | fuel + 1, cs =>
    match skipWs cs with
    | [] => none
    | c :: rest =>
      if c = '"' then
        (parseStringBody [] rest).map (fun p => (Json.str p.1, p.2))
      else if c = '{' then
        match skipWs rest with
        | '}' :: r2 => some (.obj [], r2)
        | _ => parseMembers fuel rest []
      else if c = '[' then
        match skipWs rest with
        | ']' :: r2 => some (.arr [], r2)
        | _ => parseElems fuel rest []
      else if c = 't' then
        match rest with
        | 'r' :: 'u' :: 'e' :: r => some (.bool true, r)
        | _ => none
      else if c = 'f' then
        match rest with
        | 'a' :: 'l' :: 's' :: 'e' :: r => some (.bool false, r)
        | _ => none
      else if c = 'n' then
        match rest with
        | 'u' :: 'l' :: 'l' :: r => some (.null, r)
        | _ => none
      else if c = 'N' then
        match rest with
        | 'a' :: 'N' :: r => some (.num "NaN", r)
        | _ => none
      else if c = 'I' then
        match rest with
        | 'n' :: 'f' :: 'i' :: 'n' :: 'i' :: 't' :: 'y' :: r => some (.num "Infinity", r)
        | _ => none
      else if c = '-' then
        match rest with
        | 'I' :: 'n' :: 'f' :: 'i' :: 'n' :: 'i' :: 't' :: 'y' :: r =>
          some (.num "-Infinity", r)
        | _ =>
          (lexNumber (c :: rest)).map (fun p => (Json.num (String.mk p.1), p.2))
      else if isDigitC c then
        (lexNumber (c :: rest)).map (fun p => (Json.num (String.mk p.1), p.2))
      else none

/-- Parse the elements of a non-empty JSON array (after `[`). -/
def parseElems : Nat → List Char → List Json → Option (Json × List Char)
  | 0, _, _ => none
  | fuel + 1, cs, acc =>
    match parseVal fuel cs with
    | none => none
    | some (v, rest) =>
      match skipWs rest with
      | ',' :: r2 => parseElems fuel r2 (v :: acc)
      | ']' :: r2 => some (.arr (v :: acc).reverse, r2)
      | _ => none

/-- Parse the members of a non-empty JSON object (after `{`). -/
def parseMembers : Nat → List Char → Fields → Option (Json × List Char)
  | 0, _, _ => none
  | fuel + 1, cs, acc =>
    match skipWs cs with
    | '"' :: r1 =>
      match parseStringBody [] r1 with
      | none => none
      | some (k, r2) =>
        match skipWs r2 with
        | ':' :: r3 =>
          match parseVal fuel r3 with
          | none => none
          | some (v, r4) =>
            match skipWs r4 with
            | ',' :: r5 => parseMembers fuel r5 ((k, v) :: acc)
            | '}' :: r5 => some (.obj ((k, v) :: acc).reverse, r5)
            | _ => none
        | _ => none
    | _ => none

end

/-- `json.loads`: parse a complete JSON document, allowing only whitespace
around the value; `none` models `json.JSONDecodeError`. -/
def json_loads (s : String) : Option Json :=
  match parseVal (2 * s.data.length + 4) s.data with
  | some (v, rest) => if (skipWs rest).isEmpty then some v else none
  | none => none

/-! ## `nodriver_helper.extract_json_from_content` -/

/-- Index of the first occurrence of `c` (Python `str.find`). -/
def charFindAux (c : Char) : List Char → Nat → Option Nat
  | [], _ => none
  | x :: t, i => if x = c then some i else charFindAux c t (i + 1)

/-- Index of the first occurrence of a character, or `none`
(Python `find` returning `-1`). -/
def charFind (cs : List Char) (c : Char) : Option Nat := charFindAux c cs 0

/-- Index of the last occurrence of a character, or `none`
(Python `rfind` returning `-1`). -/
def charRFindAux (c : Char) : List Char → Nat → Option Nat → Option Nat
  | [], _, best => best
  | x :: t, i, best => charRFindAux c t (i + 1) (if x = c then some i else best)

/-- Index of the last occurrence of a character. -/
def charRFind (cs : List Char) (c : Char) : Option Nat := charRFindAux c cs 0 none

/-- Python slice `cs[start:stop]`. -/
def pySlice (cs : List Char) (start stop : Nat) : List Char :=
  (cs.drop start).take (stop - start)

/-- `extract_json_from_content(content)` from `nodriver_helper.py`: try the
whole text as JSON; on failure take the substring from the first `\x7b` to
the last `\x7d` inclusive and parse that; error when either index is
missing or the substring fails to parse. -/
def extract_json_from_content (content : String) : Except String Json :=
  match json_loads content with
  | some j => .ok j
  | none =>
    match charFind content.data '{', charRFind content.data '}' with
    | some startIdx, some lastIdx =>
      let jsonStr := String.mk (pySlice content.data startIdx (lastIdx + 1))
      match json_loads jsonStr with
      | some j => .ok j
      | none => .error "JSONDecodeError"
    | _, _ => .error "Could not extract JSON from page content."

/-- The C3 claim's description of extraction, written from the spec's words:
direct parse of the full text when it is valid JSON; otherwise, when the
text contains both braces, the parse of the substring from the first `\x7b`
through the last `\x7d`; an extraction error exactly when no brace pair
exists or that substring fails to parse. -/
def specExtractC3 (content : String) : Except String Json :=
  match json_loads content with
  | some j => .ok j
  | none =>
    if content.data.contains '{' ∧ content.data.contains '}' then
      let startIdx := (charFind content.data '{').getD 0
      let lastIdx := (charRFind content.data '}').getD 0
      match json_loads (String.mk (pySlice content.data startIdx (lastIdx + 1))) with
      | some j => .ok j
      | none => .error "JSONDecodeError"
    else .error "Could not extract JSON from page content."

/-! ## `normalize_news.normalize_article`: text assembly -/

mutual

/-- `extract_text(item)` from `normalize_article`: depth-first recursive
text extraction.  Strings are themselves; dicts contribute their
string-typed values unconditionally and the non-empty extractions of their
list/dict values; lists contribute the non-empty extractions of their
elements; anything else contributes nothing. -/
def extract_text : Json → String
  | .str s => s
  | .obj kvs => String.intercalate " " (extractFromFields kvs)
  | .arr xs => String.intercalate " " (extractFromList xs)
  | _ => ""

/-- The value loop of `extract_text` for a dict. -/
def extractFromFields : Fields → List String
  | [] => []
  | (_, v) :: rest =>
    match v with
    | .str s => s :: extractFromFields rest
    | .arr xs =>
      let e := extract_text (.arr xs)
      if e = "" then extractFromFields rest else e :: extractFromFields rest
    | .obj kvs =>
      let e := extract_text (.obj kvs)
      if e = "" then extractFromFields rest else e :: extractFromFields rest
    | _ => extractFromFields rest

/-- The item loop of `extract_text` for a list. -/
def extractFromList : List Json → List String
  | [] => []
  | x :: rest =>
    let e := extract_text x
    if e = "" then extractFromList rest else e :: extractFromList rest

end

/-- The `filtered_content` loop of `normalize_article`: extract each
content item, keeping non-empty results. -/
def filtered_content : List Json → List String
  | [] => []
  | item :: rest =>
    let t := extract_text item
    if t = "" then filtered_content rest else t :: filtered_content rest

/-- The text-assembly part of `normalize_article`: content items are
extracted and joined; `raw_text = prologue + " " + " ".join(filtered)`;
the result is HTML-entity-decoded (`html.unescape`, the parameter
`unescape`) and converted to Markdown (`markdownify(·, heading_style=ATX)`,
the parameter `mdify`).  A truthy non-string prologue or a non-iterable
content value raises (`TypeError`), modelled as `.error`. -/
def textOf (kvs : Fields) (unescape mdify : String → String) : Except Unit String :=
  let contentJ := jgetD kvs "content" (.arr [])
  let prologueJ := pyOr (jgetN kvs "prologue") (.str "")
  match pyIter contentJ with
  | some items =>
    match prologueJ with
    | .str prologue =>
      .ok (mdify (unescape (prologue ++ " " ++
        String.intercalate " " (filtered_content items))))
    | _ => .error ()
  | none => .error ()

mutual

/-- The C6 claim's extraction, transcribed literally from the spec's words:
strings contribute themselves, mappings the space-joined concatenation of
string-valued and recursively extracted entries, lists the space-joined
concatenation of recursively extracted elements, all other values
nothing.  (No mention of dropping empty extractions.) -/
def specC6Text : Json → String
  | .str s => s
  | .obj kvs => String.intercalate " " (specC6Fields kvs)
  | .arr xs => String.intercalate " " (specC6List xs)
  | _ => ""

/-- Entry contributions of a mapping, per the C6 claim. -/
def specC6Fields : Fields → List String
  | [] => []
  | (_, v) :: rest =>
    match v with
    | .str s => s :: specC6Fields rest
    | .arr xs => specC6Text (.arr xs) :: specC6Fields rest
    | .obj kvs => specC6Text (.obj kvs) :: specC6Fields rest
    | _ => specC6Fields rest

/-- Element contributions of a list, per the C6 claim. -/
def specC6List : List Json → List String
  | [] => []
  | x :: rest => specC6Text x :: specC6List rest

end

/-- The C6 claim's article text, transcribed: the extraction of the content
field, prefixed with the prologue, entity-decoded, then markdownified. -/
def specC6ArticleText (kvs : Fields) (unescape mdify : String → String) : String :=
  let prologue :=
    match pyOr (jgetN kvs "prologue") (.str "") with
    | .str s => s
    | _ => ""
  mdify (unescape (prologue ++ specC6Text (jgetD kvs "content" (.arr []))))

/-! ## `normalize_article`: author resolution -/

/-- Python `str()`-formatting as used in the first/last-name f-string;
container reprs are outside the model (`none`). -/
def pyScalarFormat : Json → Option String
  | .str s => some s
  | .num lexeme => some lexeme
  | .bool true => some "True"
  | .bool false => some "False"
  | .null => some "None"
  | _ => none

/-- ASCII whitespace used by `str.strip()`. -/
def isPyWs (c : Char) : Bool :=
  c = ' ' ∨ c = '\t' ∨ c = '\n' ∨ c = '\r' ∨ c = Char.ofNat 11 ∨ c = Char.ofNat 12

/-- Python `str.strip()`. -/
def pyStrip (s : String) : String :=
  String.mk (((s.data.dropWhile isPyWs).reverse.dropWhile isPyWs).reverse)

/-- Name resolution for one dict-shaped author entry:
`full_name or f"{first_name} {last_name}".strip() or screen_name`, then
`if name:` decides whether it is appended.  Formatting a container-valued
name field is outside the model (`.error`). -/
def resolveObjName (o : Fields) : Except Unit (Option Json) :=
  let fullName := jgetN o "full_name"
  if pyTruthy fullName then .ok (some fullName)
  else
    match pyScalarFormat (jgetD o "first_name" (.str "")),
          pyScalarFormat (jgetD o "last_name" (.str "")) with
    | some a, some b =>
      let combined := pyStrip (a ++ " " ++ b)
      if combined ≠ "" then .ok (some (.str combined))
      else
        let sn := jgetN o "screen_name"
        .ok (if pyTruthy sn then some sn else none)
    | _, _ => .error ()

/-- The `author_names` loop of `normalize_article`: string entries are
appended as-is, dict entries via `resolveObjName`, anything else ignored. -/
def authorNamesOf : List Json → Except Unit (List Json)
  | [] => .ok []
  | item :: rest =>
    match item with
    | .str s => (authorNamesOf rest).map (fun t => Json.str s :: t)
    | .obj o =>
      match resolveObjName o with
      | .error e => .error e
      | .ok none => authorNamesOf rest
      | .ok (some n) => (authorNamesOf rest).map (fun t => n :: t)
    | _ => authorNamesOf rest

/-- All-strings check of Python `str.join`: `some` of the underlying
strings when every element is a string, else `none`. -/
def strsOf : List Json → Option (List String)
  | [] => some []
  | Json.str s :: rest => (strsOf rest).map (fun t => s :: t)
  | _ => none

/-- Python `sep.join(xs)`: raises (`TypeError`) when any element is not a
string. -/
def pyJoinStrs (sep : String) (xs : List Json) : Except Unit String :=
  match strsOf xs with
  | some ss => .ok (String.intercalate sep ss)
  | none => .error ()

/-- The author-resolution block of `normalize_article`: a truthy `authors`
value is iterated into `author_names` and joined with `", "` when any name
was found (`None` otherwise); a falsy `authors` falls back to a truthy
`byline`; else `None`. -/
def authorOf (kvs : Fields) : Except Unit (Option Json) :=
  let authorsJ := jgetD kvs "authors" (.arr [])
  let byline := jgetD kvs "byline" (.str "")
  if pyTruthy authorsJ then
    match pyIter authorsJ with
    | none => .error ()
    | some items =>
      match authorNamesOf items with
      | .error e => .error e
      | .ok names =>
        if names.isEmpty then .ok none
        else
          match pyJoinStrs ", " names with
          | .ok s => .ok (some (.str s))
          | .error e => .error e
  else if pyTruthy byline then .ok (some byline)
  else .ok none

/-- First+last fallback of the C4 claim, then the screen-name field. -/
def specC4FirstLast (o : Fields) : Option String :=
  let fn := match jget o "first_name" with | some (.str s) => s | _ => ""
  let ln := match jget o "last_name" with | some (.str s) => s | _ => ""
  let combined := pyStrip (fn ++ " " ++ ln)
  if combined ≠ "" then some combined
  else
    match jget o "screen_name" with
    | some (.str s) => if s ≠ "" then some s else none
    | _ => none

/-- One author entry resolved per the C4 claim's words: a plain name
string, or for object entries the full-name field, else the joined
first+last name fields, else the screen-name field. -/
def specC4Resolve : Json → Option String
  | .str s => some s
  | .obj o =>
    match jget o "full_name" with
    | some (.str s) =>
      if s ≠ "" then some s
      else specC4FirstLast o
    | _ => specC4FirstLast o
  | _ => none

/-- The C4 claim's author resolution, transcribed: all resolved names of
the structured list joined with `", "`; **if the structured list yields no
result**, the byline string field; otherwise null. -/
def specC4Author (kvs : Fields) : Option Json :=
  let items :=
    match jgetD kvs "authors" (.arr []) with
    | .arr xs => xs
    | _ => []
  let names := items.filterMap specC4Resolve
  if ! names.isEmpty then some (.str (String.intercalate ", " names))
  else
    match jget kvs "byline" with
    | some (.str b) => if b ≠ "" then some (.str b) else none
    | _ => none

/-- The amended C4 resolution: the byline is consulted **only when the
authors value itself is falsy** (absent or empty); a non-empty authors
list that yields no names gives a null author. -/
def specC4AuthorAmended (items : List Json) (byline : Json) : Option Json :=
  if items.isEmpty then (if pyTruthy byline then some byline else none)
  else
    let names := items.filterMap specC4Resolve
    if names.isEmpty then none
    else some (.str (String.intercalate ", " names))

/-- Well-formedness of an optional name field: absent, null, or a string
(the shapes the C4 theorem covers). -/
def wfNameField (o : Fields) (k : String) : Bool :=
  match jget o k with
  | none => true
  | some .null => true
  | some (.str _) => true
  | _ => false

/-- Well-formedness of name fields that feed the f-string: absent or a
string (null would format as `"None"`). -/
def wfFmtField (o : Fields) (k : String) : Bool :=
  match jget o k with
  | none => true
  | some (.str _) => true
  | _ => false

/-- Well-formed author entry for the C4 theorem: non-dict entries are
unconstrained (both the code and the claim skip them, except strings);
dict entries have absent-or-string name fields. -/
def wfAuthorEntry : Json → Bool
  | .obj o =>
    wfNameField o "full_name" && wfFmtField o "first_name" &&
    wfFmtField o "last_name" && wfNameField o "screen_name"
  | _ => true

/-! ## `normalize_article`: date resolution -/

/-- Decimal digit list to a natural number (`none` when empty or
non-digit). -/
def digitsVal (ds : List Char) : Option Nat :=
  if ds.isEmpty ∨ ¬ ds.all isDigitC then none
  else some (ds.foldl (fun n c => 10 * n + (c.toNat - 48)) 0)

/-- Integer parse of a lexeme (optional sign, digits). -/
def intLexeme (s : String) : Option Int :=
  match s.data with
  | '-' :: ds => (digitsVal ds).map (fun n => -(n : Int))
  | '+' :: ds => (digitsVal ds).map (fun n => (n : Int))
  | ds => (digitsVal ds).map (fun n => (n : Int))

/-- Python `int(x)` on the values reachable here: integral numeric
lexemes, integer-format strings (whitespace-stripped) and booleans
convert; everything else raises `ValueError`/`TypeError` (`none`).
Truncation of non-integral floats is outside the model. -/
def pyInt : Json → Option Int
  | .num lexeme => intLexeme lexeme
  | .str s => intLexeme (pyStrip s)
  | .bool b => some (if b then 1 else 0)
  | _ => none

/-- The `utc` fallback of `normalize_article`: a truthy `utc` value that
converts with `int()` contributes `int(utc) // 1000` (floor division);
conversion failure is swallowed (`None`). -/
def utcFallback (st : Fields) : Option Int :=
  let utc := jgetN st "utc"
  if pyTruthy utc then
    match pyInt utc with
    | some v => some (Int.fdiv v 1000)
    | none => none
  else none

/-- The date block of `normalize_article`:
`pub_date_original = starttime.get("iso8601") or starttime.get("rfc2822")`;
a truthy value is parsed with the external `dateutil` parser (the
`parseDate` parameter: `none` models a parse exception, which also covers
a truthy non-string value); on failure the `utc` fallback applies; a falsy
`pub_date_original` yields `None` without consulting `utc`.  A non-dict
truthy `starttime` raises (`.error`).  Returns
`(publication_date, publication_timestamp_gmt)`. -/
def timestampOf (kvs : Fields) (parseDate : String → Option Int) :
    Except Unit (Json × Option Int) :=
  match jgetD kvs "starttime" (.obj []) with
  | .obj st =>
    let pubDateOriginal := pyOr (jgetN st "iso8601") (jgetN st "rfc2822")
    if pyTruthy pubDateOriginal then
      match pubDateOriginal with
      | .str s =>
        match parseDate s with
        | some t => .ok (pubDateOriginal, some t)
        | none => .ok (pubDateOriginal, utcFallback st)
      | _ => .ok (pubDateOriginal, utcFallback st)
    else .ok (pubDateOriginal, none)
  | _ => .error ()

/-- The C5 claim's timestamp, transcribed: prefer the ISO-8601 field,
fall back to the RFC-2822 field, each parsed to Unix seconds; when both
textual forms fail to parse, the raw millisecond-epoch field divided by
1000 if present; otherwise null. -/
def specC5Timestamp (parseDate : String → Option Int) (st : Fields) : Option Int :=
  let tryField (k : String) : Option Int :=
    match jget st k with
    | some (.str s) => parseDate s
    | _ => none
  match tryField "iso8601" with
  | some t => some t
  | none =>
    match tryField "rfc2822" with
    | some t => some t
    | none =>
      match jget st "utc" with
      | some u => (pyInt u).map (fun v => Int.fdiv v 1000)
      | none => none

/-! ## `normalize_article`: keyword merge -/

/-- Python `keywords_list + sections_list`, then the values iterated by
the merge loop: list concatenation; string concatenation iterates
characters; any other combination raises `TypeError`. -/
def keywordConcat : Json → Json → Except Unit (List Json)
  | .arr xs, .arr ys => .ok (xs ++ ys)
  | .str a, .str b => .ok ((a ++ b).data.map (fun c => Json.str (String.mk [c])))
  | _, _ => .error ()

/-- Python-hashable JSON values (set membership requires it). -/
def isHashable : Json → Bool
  | .arr _ => false
  | .obj _ => false
  | _ => true

/-- The merge loop of `normalize_article`:
`if keyword and keyword not in seen: append; seen.add` — a truthy
unhashable keyword raises (`TypeError`). -/
def mergeLoop (seen : List Json) (acc : List Json) : List Json → Except Unit (List Json)
  | [] => .ok acc.reverse
  | k :: rest =>
    if pyTruthy k then
      if isHashable k then
        if seen.elem k then mergeLoop seen acc rest
        else mergeLoop (k :: seen) (k :: acc) rest
      else .error ()
    else mergeLoop seen acc rest

/-- `all_keywords` of `normalize_article`: merge `keywords + sections`
dropping falsy entries and duplicates (first occurrence kept). -/
def all_keywords (keywordsJ sectionsJ : Json) : Except Unit (List Json) :=
  match keywordConcat keywordsJ sectionsJ with
  | .ok l => mergeLoop [] [] l
  | .error e => .error e

/-- Deduplication keeping the first occurrence (the C7 claim's words). -/
def dedupFirst : List Json → List Json
  | [] => []
  | x :: rest => x :: dedupFirst (rest.filter (fun y => ! (y == x)))
termination_by l => l.length
decreasing_by
  simp only [List.length_cons]
  exact Nat.lt_succ_of_le (List.length_filter_le _ _)

/-- The C7 claim's merge, transcribed: concatenate keywords then sections,
discard falsy entries, dedup keeping first occurrence. -/
def specC7Merge (ks ss : List Json) : List Json :=
  dedupFirst ((ks ++ ss).filter pyTruthy)

/-! ## `normalize_article` and the per-file loop -/

/-- The canonical normalized article (the dict written by
`normalize_article`). -/
structure CanonicalArticle where
  url : Json
  title : Json
  article_text : String
  source_domain : String
  publication_date : Json
  publication_timestamp_gmt : Option Int
  first_seen_timestamp_gmt : Int
  author : Option Json
  keywords : List Json
deriving Repr

/-- `normalize_article(article_data, source_domain, scrape_timestamp)`:
assemble the canonical record; any of the Python `TypeError` /
`AttributeError` paths modelled above makes the whole call raise. -/
def normalize_article (kvs : Fields) (source_domain : String)
    (scrape_timestamp : Int) (unescape mdify : String → String)
    (parseDate : String → Option Int) : Except Unit CanonicalArticle := do
  let text ← textOf kvs unescape mdify
  let pd ← timestampOf kvs parseDate
  let author ← authorOf kvs
  let keywords ← all_keywords (jgetD kvs "keywords" (.arr []))
    (jgetD kvs "sections" (.arr []))
  .ok { url := jgetN kvs "url", title := jgetN kvs "title",
        article_text := text, source_domain,
        publication_date := pd.1, publication_timestamp_gmt := pd.2,
        first_seen_timestamp_gmt := scrape_timestamp, author, keywords }

/-- The statistics dict of `normalize_townnews_file`. -/
structure Stats where
  articles_new : Nat
  articles_skipped : Nat
  articles_skipped_image_type : Nat
  errors : Nat
deriving Repr, DecidableEq

/-- The zero statistics. -/
def Stats.init : Stats := ⟨0, 0, 0, 0⟩

/-- Sum of the four counters. -/
def Stats.total (s : Stats) : Nat :=
  s.articles_new + s.articles_skipped + s.articles_skipped_image_type + s.errors

/-- The output directory: finished article files keyed by URL-hash
filename. -/
abbrev Store := List (String × CanonicalArticle)

/-- `os.path.exists` on the output path for a hash. -/
def lookupStore : Store → String → Option CanonicalArticle
  | [], _ => none
  | (k, v) :: rest, h => if k = h then some v else lookupStore rest h

/-- How many stored records carry a given hash key. -/
def countKey (store : Store) (h : String) : Nat :=
  (store.filter (fun kv => kv.1 == h)).length

/-- `article.get("type") == "image"`. -/
def isImage (kvs : Fields) : Bool :=
  match jget kvs "type" with
  | some (.str t) => t == "image"
  | _ => false

/-- The ambient parameters of one `normalize_townnews_file` run: the
domain and scrape timestamp, the external text libraries, the external
date parser, and a write oracle (`false` models an I/O failure of the
`open`/`json.dump` step, which the loop counts as an error). -/
structure NormalizeEnv where
  source_domain : String
  scrape_timestamp : Int
  unescape : String → String
  mdify : String → String
  parseDate : String → Option Int
  writeOk : String → CanonicalArticle → Bool

/-- The body of the per-article loop of `normalize_townnews_file`:
image-typed records are skipped; a missing/falsy URL is an error; an
existing output file is a duplicate skip; otherwise the record is
normalized and written, each failure being caught and counted. -/
def processArticle (env : NormalizeEnv) (acc : Store × Stats) (article : Json) :
    Store × Stats :=
  let store := acc.1
  let stats := acc.2
  match article with
  | .obj kvs =>
    if isImage kvs then
      (store, { stats with articles_skipped_image_type :=
                  stats.articles_skipped_image_type + 1 })
    else
      match get_url_hash (jgetN kvs "url") with
      | .error _ => (store, { stats with errors := stats.errors + 1 })
      | .ok none => (store, { stats with errors := stats.errors + 1 })
      | .ok (some urlHash) =>
        if (lookupStore store urlHash).isSome then
          (store, { stats with articles_skipped := stats.articles_skipped + 1 })
        else
          match normalize_article kvs env.source_domain env.scrape_timestamp
              env.unescape env.mdify env.parseDate with
          | .error _ => (store, { stats with errors := stats.errors + 1 })
          | .ok c =>
            if env.writeOk urlHash c then
              ((urlHash, c) :: store,
               { stats with articles_new := stats.articles_new + 1 })
            else (store, { stats with errors := stats.errors + 1 })
  | _ => (store, { stats with errors := stats.errors + 1 })

/-- The per-file loop of `normalize_townnews_file` over `data["rows"]`. -/
def normalize_townnews_rows (env : NormalizeEnv) (rows : List Json)
    (store : Store) (stats : Stats) : Store × Stats :=
  rows.foldl (processArticle env) (store, stats)

/-! ## `fetch_json_from_urls` and the `collect_news` loop

The browser steps (navigate, settle, selector wait, read) are modelled by
an environment oracle: per target index, either the steps raise before
content is read, or they produce the rendered page text.  The
`random.uniform` draws are a second oracle. -/

/-- Environment outcome for one target. -/
inductive FetchEnv where
  | raises (msg : String) : FetchEnv
  | content (text : String) : FetchEnv

/-- One result dict of `fetch_json_from_urls`. -/
structure FetchResult where
  url : String
  status : String
  data : Option Json
  error : Option String
  content : Option String
deriving Repr

/-- The per-URL try/except body of `fetch_json_from_urls`: browser failure
or extraction failure produces an error record (with the captured content
attached when non-empty), success a success record. -/
def fetchOne (env : Nat → FetchEnv) (i : Nat) (url : String) : FetchResult :=
  match env i with
  | .raises msg =>
    { url, status := "error", data := none, error := some msg, content := none }
  | .content text =>
    match extract_json_from_content text with
    | .ok d =>
      { url, status := "success", data := some d, error := none, content := none }
    | .error msg =>
      { url, status := "error", data := none, error := some msg,
        content := if text ≠ "" then some text else none }

/-- `fetch_json_from_urls` from `nodriver_helper.py`: one result per URL in
order; after each URL except the last (`if i < len(urls) - 1`), one random
delay is awaited.  Returns the result list and the awaited delays. -/
def fetch_json_from_urls (env : Nat → FetchEnv) (draw : Nat → ℚ) :
    List String → Nat → List FetchResult × List ℚ
  | [], _ => ([], [])
  | url :: rest, i =>
    let r := fetchOne env i url
    let p := fetch_json_from_urls env draw rest (i + 1)
    if rest.isEmpty then (r :: p.1, p.2)
    else (r :: p.1, draw i :: p.2)

/-- One summary entry of `collect_news`. -/
structure CollectResult where
  domain : String
  status : String
  article_count : Option Json
  error_message : Option String
deriving Repr

/-- The per-domain try/except body of `collect_news` (its inline JSON
extraction is the same algorithm as `extract_json_from_content`); a
non-dict payload makes `data.get("total", 0)` raise, which is caught as an
error record. -/
def collectOne (env : Nat → FetchEnv) (i : Nat) (domain : String) : CollectResult :=
  match env i with
  | .raises msg =>
    { domain, status := "error", article_count := none, error_message := some msg }
  | .content text =>
    match extract_json_from_content text with
    | .ok (.obj kvs) =>
      { domain, status := "success", article_count := some (jgetD kvs "total" (.num "0")),
        error_message := none }
    | .ok _ =>
      { domain, status := "error", article_count := none,
        error_message := some "AttributeError" }
    | .error msg =>
      { domain, status := "error", article_count := none, error_message := some msg }

/-- The `collect_news` loop from `collect_news.py`: one summary entry per
domain in order; the `finally` block awaits a random delay after **every**
domain, including the last. -/
def collect_news (env : Nat → FetchEnv) (draw : Nat → ℚ) :
    List String → Nat → List CollectResult × List ℚ
  | [], _ => ([], [])
  | d :: rest, i =>
    let r := collectOne env i d
    let p := collect_news env draw rest (i + 1)
    (r :: p.1, draw i :: p.2)

/-! ## Theorems -/

theorem charFindAux_isSome (c : Char) (cs : List Char) (i : Nat) :
    (charFindAux c cs i).isSome = cs.contains c := by
  induction cs generalizing i with
  | nil => simp [charFindAux]
  | cons x t ih =>
    by_cases hx : x = c
    · simp [charFindAux, hx, List.contains_cons]
    · simp [charFindAux, hx, List.contains_cons, ih, Ne.symm hx, beq_iff_eq]

theorem charRFindAux_isSome (c : Char) (cs : List Char) (i : Nat) (best : Option Nat) :
    (charRFindAux c cs i best).isSome = (cs.contains c || best.isSome) := by
  induction cs generalizing i best with
  | nil => simp [charRFindAux]
  | cons x t ih =>
    by_cases hx : x = c
    · simp [charRFindAux, hx, List.contains_cons, ih]
    · simp [charRFindAux, hx, List.contains_cons, ih, Ne.symm hx, beq_iff_eq]

/-- C3: for every input text, JSON extraction returns the direct parse of
the full text when the whole text is valid JSON; otherwise, when the text
contains both braces, it returns the parse of the substring from the first
`\x7b` through the last `\x7d`; and it fails with an extraction error
exactly when no such brace pair exists or that substring fails to parse
(stated as agreement with `specExtractC3`, the claim transcribed). -/
theorem C3_extract_json_from_content_matches_spec (content : String) :
    extract_json_from_content content = specExtractC3 content := by
  unfold extract_json_from_content specExtractC3
  cases h : json_loads content with
  | some j => rfl
  | none =>
    by_cases hb : content.data.contains '{' ∧ content.data.contains '}'
    · have m1 : '{' ∈ content.data := by simpa using hb.1
      have m2 : '}' ∈ content.data := by simpa using hb.2
      have f1 : (charFind content.data '{').isSome := by
        rw [charFind, charFindAux_isSome]; exact hb.1
      have f2 : (charRFind content.data '}').isSome := by
        rw [charRFind, charRFindAux_isSome]; simp [m2]
      obtain ⟨s, hs⟩ := Option.isSome_iff_exists.mp f1
      obtain ⟨e, he⟩ := Option.isSome_iff_exists.mp f2
      simp [hs, he, m1, m2]
    · rw [if_neg hb]
      rcases hf : charFind content.data '{' with _ | s
      · rfl
      · rcases hg : charRFind content.data '}' with _ | e
        · rfl
        · exfalso
          apply hb
          constructor
          · rw [← charFindAux_isSome '{' content.data 0]
            simp [charFind] at hf; simp [hf]
          · have := charRFindAux_isSome '}' content.data 0 none
            simp [charRFind] at hg
            simp [hg] at this
            simp [this]

theorem processArticle_total (env : NormalizeEnv) (acc : Store × Stats) (a : Json) :
    (processArticle env acc a).2.total = acc.2.total + 1 := by
  obtain ⟨store, stats⟩ := acc
  cases a with
  | obj kvs =>
    unfold processArticle
    by_cases h1 : isImage kvs
    · simp [h1, Stats.total] <;> omega
    · cases hh : get_url_hash (jgetN kvs "url") with
      | error e => simp [h1, hh, Stats.total] <;> omega
      | ok u =>
        cases u with
        | none => simp [h1, hh, Stats.total] <;> omega
        | some h =>
          by_cases h2 : (lookupStore store h).isSome
          · simp [h1, hh, h2, Stats.total] <;> omega
          · cases hn : normalize_article kvs env.source_domain env.scrape_timestamp
                env.unescape env.mdify env.parseDate with
            | error e => simp [h1, hh, h2, hn, Stats.total] <;> omega
            | ok c =>
              by_cases h3 : env.writeOk h c
              · simp [h1, hh, h2, hn, h3, Stats.total] <;> omega
              · simp [h1, hh, h2, hn, h3, Stats.total] <;> omega
  | null => simp [processArticle, Stats.total] <;> omega
  | bool b => simp [processArticle, Stats.total] <;> omega
  | num s => simp [processArticle, Stats.total] <;> omega
  | str s => simp [processArticle, Stats.total] <;> omega
  | arr xs => simp [processArticle, Stats.total] <;> omega

/-- Claim C10: each record of a file increments exactly one of the four
statistics counters, so after processing the sum of the four counters
equals the initial sum plus the number of rows — including when individual
records raise during normalization or when the write oracle fails. -/
theorem C10_stats_counters_partition_rows (env : NormalizeEnv) (rows : List Json)
    (store : Store) (stats : Stats) :
    (normalize_townnews_rows env rows store stats).2.total =
      stats.total + rows.length := by
  suffices h : ∀ (rows : List Json) (acc : Store × Stats),
      (rows.foldl (processArticle env) acc).2.total = acc.2.total + rows.length by
    simpa [normalize_townnews_rows] using h rows (store, stats)
  intro rows
  induction rows with
  | nil => intro acc; simp
  | cons a rest ih =>
    intro acc
    simp only [List.foldl_cons, ih, processArticle_total, List.length_cons]
    omega

/-- Claim C8: a record whose `type` field equals `"image"` is skipped:
the store is unchanged (never normalized, never written) and only the
image-skip counter is incremented — for every store and every record
(with or without a URL or an existing stored identity) — and the loop
continues with the remaining rows. -/
theorem C8_image_record_skipped (env : NormalizeEnv) (store : Store) (stats : Stats)
    (kvs : Fields) (rest : List Json)
    (h : jget kvs "type" = some (.str "image")) :
    processArticle env (store, stats) (.obj kvs) =
      (store, { stats with articles_skipped_image_type :=
                  stats.articles_skipped_image_type + 1 }) ∧
    normalize_townnews_rows env (.obj kvs :: rest) store stats =
      normalize_townnews_rows env rest store
        { stats with articles_skipped_image_type :=
            stats.articles_skipped_image_type + 1 } := by
  have himg : isImage kvs = true := by simp [isImage, h]
  have h1 : processArticle env (store, stats) (.obj kvs) =
      (store, { stats with articles_skipped_image_type :=
                  stats.articles_skipped_image_type + 1 }) := by
    unfold processArticle
    simp [himg]
  exact ⟨h1, by simp [normalize_townnews_rows, List.foldl_cons, h1]⟩

/-- Claim C9: a non-image record whose `url` field is absent or the empty
string yields no identity: nothing is persisted, the error counter is
incremented, and processing of the remaining rows continues. -/
theorem C9_missing_url_counted_error (env : NormalizeEnv) (store : Store) (stats : Stats)
    (kvs : Fields) (rest : List Json)
    (hni : isImage kvs = false)
    (hurl : jget kvs "url" = none ∨ jget kvs "url" = some (.str "")) :
    processArticle env (store, stats) (.obj kvs) =
      (store, { stats with errors := stats.errors + 1 }) ∧
    normalize_townnews_rows env (.obj kvs :: rest) store stats =
      normalize_townnews_rows env rest store
        { stats with errors := stats.errors + 1 } := by
  have hh : get_url_hash (jgetN kvs "url") = .ok none := by
    rcases hurl with h | h <;> simp [jgetN, h, get_url_hash, pyTruthy]
  have h1 : processArticle env (store, stats) (.obj kvs) =
      (store, { stats with errors := stats.errors + 1 }) := by
    unfold processArticle
    simp [hni, hh]
  exact ⟨h1, by simp [normalize_townnews_rows, List.foldl_cons, h1]⟩
theorem lookupStore_none_countKey (store : Store) (h : String)
    (hl : lookupStore store h = none) : countKey store h = 0 := by
  induction store with
  | nil => rfl
  | cons kv rest ih =>
    obtain ⟨k, v⟩ := kv
    by_cases hk : k = h
    · simp [lookupStore, hk] at hl
    · simp only [lookupStore, hk, if_false] at hl
      have he : countKey ((k, v) :: rest) h = countKey rest h := by
        simp [countKey, List.filter_cons, hk]
      rw [he]
      exact ih hl

/-- Claim C1: records with equal non-empty `url` map to the same
ArticleIdentity (the MD5 hex digest of the URL); after the first
successful write the stored record exists under that identity, exactly
one record with that key is stored, and any later record with the same
URL is reported as a duplicate skip (counted in `articles_skipped`)
leaving the store — including the stored file's contents — unchanged. -/
theorem C1_identity_and_dedup_idempotence (env : NormalizeEnv) (store : Store) (stats : Stats)
    (kvs : Fields) (u : String) (c : CanonicalArticle)
    (himg : isImage kvs = false)
    (hurl : jgetN kvs "url" = .str u)
    (hu : u ≠ "")
    (hstore : lookupStore store (md5Hex u) = none)
    (hnorm : normalize_article kvs env.source_domain env.scrape_timestamp
        env.unescape env.mdify env.parseDate = .ok c)
    (hw : env.writeOk (md5Hex u) c = true) :
    (∀ kvs2 : Fields, jgetN kvs2 "url" = .str u →
        get_url_hash (jgetN kvs2 "url") = .ok (some (md5Hex u))) ∧
    processArticle env (store, stats) (.obj kvs) =
      ((md5Hex u, c) :: store,
        { stats with articles_new := stats.articles_new + 1 }) ∧
    lookupStore ((md5Hex u, c) :: store) (md5Hex u) = some c ∧
    countKey ((md5Hex u, c) :: store) (md5Hex u) = 1 ∧
    (∀ (kvs2 : Fields) (stats2 : Stats), isImage kvs2 = false →
      jgetN kvs2 "url" = .str u →
      processArticle env ((md5Hex u, c) :: store, stats2) (.obj kvs2) =
        ((md5Hex u, c) :: store,
         { stats2 with articles_skipped := stats2.articles_skipped + 1 })) ∧
    (∀ (store2 : Store) (stats2 : Stats) (kvs2 : Fields), isImage kvs2 = false →
      jgetN kvs2 "url" = .str u →
      (lookupStore store2 (md5Hex u)).isSome = true →
      processArticle env (store2, stats2) (.obj kvs2) =
        (store2, { stats2 with articles_skipped := stats2.articles_skipped + 1 })) := by
  have hh : ∀ kvs2 : Fields, jgetN kvs2 "url" = .str u →
      get_url_hash (jgetN kvs2 "url") = .ok (some (md5Hex u)) := by
    intro kvs2 h2
    rw [h2]
    simp [get_url_hash, pyTruthy, hu]
  refine ⟨hh, ?_, ?_, ?_, ?_, ?_⟩
  · unfold processArticle
    simp [himg, hh kvs hurl, hstore, hnorm, hw]
  · simp [lookupStore]
  · have he : countKey ((md5Hex u, c) :: store) (md5Hex u) =
        countKey store (md5Hex u) + 1 := by
      simp [countKey, List.filter_cons]
    rw [he, lookupStore_none_countKey store _ hstore]
  · intro kvs2 stats2 h2i h2u
    unfold processArticle
    simp [h2i, hh kvs2 h2u, lookupStore]
  · intro store2 stats2 kvs2 h2i h2u h2s
    unfold processArticle
    simp [h2i, hh kvs2 h2u, h2s]
/-- Witness for C1 at a concrete record with URL `"a"` and an empty
store. -/
theorem C1_identity_and_dedup_idempotence_witness :
    ("a" : String) ≠ "" ∧
    processArticle ⟨"d", 0, id, id, fun _ => none, fun _ _ => true⟩
        ([], Stats.init) (.obj [("url", Json.str "a")]) =
      ([(md5Hex "a",
        { url := Json.str "a", title := Json.null, article_text := " ",
          source_domain := "d", publication_date := Json.null,
          publication_timestamp_gmt := none, first_seen_timestamp_gmt := 0,
          author := none, keywords := [] })],
       { Stats.init with articles_new := 1 }) :=
  ⟨by decide, (C1_identity_and_dedup_idempotence ⟨"d", 0, id, id, fun _ => none, fun _ _ => true⟩ [] Stats.init
      [("url", Json.str "a")] "a" _ (by rfl) (by rfl) (by decide) (by rfl) (by rfl)
      (by rfl)).2.1⟩
theorem fetchOne_url (env : Nat → FetchEnv) (i : Nat) (url : String) :
    (fetchOne env i url).url = url := by
  unfold fetchOne
  repeat' split
  all_goals rfl

theorem fetch_results_getQ (env : Nat → FetchEnv) (draw : Nat → ℚ) :
    ∀ (urls : List String) (i j : Nat),
      ((fetch_json_from_urls env draw urls i).1)[j]? =
        Option.map (fetchOne env (i + j)) (urls[j]?) := by
  intro urls
  induction urls with
  | nil => intro i j; simp [fetch_json_from_urls]
  | cons u rest ih =>
    intro i j
    simp only [fetch_json_from_urls]
    split
    all_goals cases j with
    | zero => simp
    | succ j =>
      simp only [List.getElem?_cons_succ]
      rw [ih (i + 1) j]
      have h2 : i + 1 + j = i + (j + 1) := by omega
      rw [h2]

theorem fetch_results_length (env : Nat → FetchEnv) (draw : Nat → ℚ) :
    ∀ (urls : List String) (i : Nat),
      ((fetch_json_from_urls env draw urls i).1).length = urls.length := by
  intro urls
  induction urls with
  | nil => intro i; rfl
  | cons u rest ih =>
    intro i
    simp only [fetch_json_from_urls]
    split <;> simp [ih]

theorem fetch_urls_map (env : Nat → FetchEnv) (draw : Nat → ℚ) :
    ∀ (urls : List String) (i : Nat),
      ((fetch_json_from_urls env draw urls i).1).map FetchResult.url = urls := by
  intro urls
  induction urls with
  | nil => intro i; rfl
  | cons u rest ih =>
    intro i
    simp only [fetch_json_from_urls]
    split <;> simp [ih, fetchOne_url]

theorem fetch_delays_length (env : Nat → FetchEnv) (draw : Nat → ℚ) :
    ∀ (urls : List String) (i : Nat),
      ((fetch_json_from_urls env draw urls i).2).length = urls.length - 1 := by
  intro urls
  induction urls with
  | nil => intro i; rfl
  | cons u rest ih =>
    intro i
    simp only [fetch_json_from_urls]
    split
    next h =>
      simp only [List.isEmpty_iff] at h
      subst h
      rfl
    next h =>
      simp only [List.isEmpty_iff] at h
      have hne : rest.length ≠ 0 := fun h0 => h (List.length_eq_zero.mp h0)
      simp only [List.length_cons, ih]
      omega

theorem fetch_delays_are_draws (env : Nat → FetchEnv) (draw : Nat → ℚ) :
    ∀ (urls : List String) (i : Nat) (d : ℚ),
      d ∈ (fetch_json_from_urls env draw urls i).2 → ∃ j, d = draw j := by
  intro urls
  induction urls with
  | nil => intro i d hd; simp [fetch_json_from_urls] at hd
  | cons u rest ih =>
    intro i d hd
    simp only [fetch_json_from_urls] at hd
    rcases hsplit : rest.isEmpty with _ | _
    · rw [hsplit] at hd
      simp only [if_false, Bool.false_eq_true, List.mem_cons] at hd
      rcases hd with hd | hd
      · exact ⟨i, hd⟩
      · exact ih (i + 1) d hd
    · rw [hsplit] at hd
      simp only [if_true] at hd
      exact ih (i + 1) d hd

theorem collect_results_length (env : Nat → FetchEnv) (draw : Nat → ℚ) :
    ∀ (doms : List String) (i : Nat),
      ((collect_news env draw doms i).1).length = doms.length ∧
      ((collect_news env draw doms i).2).length = doms.length := by
  intro doms
  induction doms with
  | nil => intro i; exact ⟨rfl, rfl⟩
  | cons d rest ih =>
    intro i
    simp only [collect_news, List.length_cons]
    exact ⟨by simp [(ih (i + 1)).1], by simp [(ih (i + 1)).2]⟩

theorem collectOne_domain (env : Nat → FetchEnv) (i : Nat) (d : String) :
    (collectOne env i d).domain = d := by
  unfold collectOne
  repeat' split
  all_goals rfl

theorem collect_results_getQ (env : Nat → FetchEnv) (draw : Nat → ℚ) :
    ∀ (doms : List String) (i j : Nat),
      ((collect_news env draw doms i).1)[j]? =
        Option.map (collectOne env (i + j)) (doms[j]?) := by
  intro doms
  induction doms with
  | nil => intro i j; simp [collect_news]
  | cons d rest ih =>
    intro i j
    simp only [collect_news]
    cases j with
    | zero => simp
    | succ j =>
      simp only [List.getElem?_cons_succ]
      rw [ih (i + 1) j]
      have h2 : i + 1 + j = i + (j + 1) := by omega
      rw [h2]

theorem collect_domains_map (env : Nat → FetchEnv) (draw : Nat → ℚ) :
    ∀ (doms : List String) (i : Nat),
      ((collect_news env draw doms i).1).map CollectResult.domain = doms := by
  intro doms
  induction doms with
  | nil => intro i; rfl
  | cons d rest ih =>
    intro i
    simp only [collect_news]
    simp [ih, collectOne_domain]

/-- Claim C2 (amended): both loops produce exactly one outcome per target
in input order — lengths and target projections match the input list and
the j-th outcome is exactly the per-target body (`fetchOne` resp.
`collectOne`) applied to the j-th target, so a per-target failure is
recorded as an error outcome, never aborting the run;
`fetch_json_from_urls` awaits exactly N-1 inter-request delays, each drawn
from the configured range, with no delay after the last target; the
`collect_news` loop awaits a delay after **every** target, N in total. -/
theorem C2_amended_outcomes_and_delays (env : Nat → FetchEnv) (draw : Nat → ℚ)
    (dmin dmax : ℚ) (urls doms : List String)
    (hd : ∀ i, dmin ≤ draw i ∧ draw i ≤ dmax) :
    ((fetch_json_from_urls env draw urls 0).1).length = urls.length ∧
    ((fetch_json_from_urls env draw urls 0).1).map FetchResult.url = urls ∧
    (∀ j : Nat, ((fetch_json_from_urls env draw urls 0).1)[j]? =
      Option.map (fetchOne env j) (urls[j]?)) ∧
    ((fetch_json_from_urls env draw urls 0).2).length = urls.length - 1 ∧
    (∀ d ∈ (fetch_json_from_urls env draw urls 0).2, dmin ≤ d ∧ d ≤ dmax) ∧
    ((collect_news env draw doms 0).1).length = doms.length ∧
    ((collect_news env draw doms 0).2).length = doms.length ∧
    ((collect_news env draw doms 0).1).map CollectResult.domain = doms ∧
    (∀ j : Nat, ((collect_news env draw doms 0).1)[j]? =
      Option.map (collectOne env j) (doms[j]?)) := by
  refine ⟨fetch_results_length env draw urls 0, fetch_urls_map env draw urls 0, ?_,
    fetch_delays_length env draw urls 0, ?_, (collect_results_length env draw doms 0).1,
    (collect_results_length env draw doms 0).2, collect_domains_map env draw doms 0, ?_⟩
  · intro j
    simpa using fetch_results_getQ env draw urls 0 j
  · intro d hd2
    obtain ⟨j, rfl⟩ := fetch_delays_are_draws env draw urls 0 d hd2
    exact hd j
  · intro j
    simpa using collect_results_getQ env draw doms 0 j

/-- Counterexample to C2 as stated: for the single-target list, the
`collect_news` loop (one of the claim's cited sources) awaits 1 delay,
not N-1 = 0 — its `finally` block has no last-target guard. -/
theorem C2_counterexample :
    (collect_news (fun _ => FetchEnv.raises "boom") (fun _ => (3 : ℚ))
      ["example.com"] 0).2.length = 1 ∧
    (1 : Nat) ≠ ["example.com"].length - 1 := ⟨rfl, by decide⟩

/-- Witness for the amended C2 at a concrete two-target run with the
delay oracle fixed at 3 seconds. -/
theorem C2_amended_outcomes_and_delays_witness :
    (∀ i : Nat, (3 : ℚ) ≤ (fun _ => (3 : ℚ)) i ∧ (fun _ => (3 : ℚ)) i ≤ 3) ∧
    ((fetch_json_from_urls (fun _ => FetchEnv.raises "x") (fun _ => (3 : ℚ))
        ["a", "b"] 0).2).length = ["a", "b"].length - 1 :=
  ⟨fun _ => ⟨le_refl _, le_refl _⟩,
   (C2_amended_outcomes_and_delays (fun _ => FetchEnv.raises "x") (fun _ => (3 : ℚ)) 3 3
      ["a", "b"] ["c"] (fun _ => ⟨le_refl _, le_refl _⟩)).2.2.2.1⟩

theorem mergeLoop_spec :
    ∀ (l seen acc : List Json),
      (∀ k ∈ l, pyTruthy k = true → isHashable k = true) →
      mergeLoop seen acc l =
        .ok (acc.reverse ++
          dedupFirst (l.filter (fun k => pyTruthy k && ! List.elem k seen))) := by
  intro l
  induction l with
  | nil => intro seen acc hh; simp [mergeLoop, dedupFirst]
  | cons x rest ih =>
    intro seen acc hh
    have hrest : ∀ k ∈ rest, pyTruthy k = true → isHashable k = true :=
      fun k hk => hh k (List.mem_cons_of_mem x hk)
    by_cases hx : pyTruthy x = true
    · have hhash : isHashable x = true := hh x (List.mem_cons_self x rest) hx
      by_cases hseen : List.elem x seen = true
      · have hfe : (x :: rest).filter (fun k => pyTruthy k && ! List.elem k seen) =
            rest.filter (fun k => pyTruthy k && ! List.elem k seen) := by
          simp [List.filter_cons, hx, hseen]
        simp only [mergeLoop, hx, hhash, hseen, if_true]
        rw [ih seen acc hrest, hfe]
      · have hcons : (x :: rest).filter (fun k => pyTruthy k && ! List.elem k seen) =
            x :: rest.filter (fun k => pyTruthy k && ! List.elem k seen) := by
          simp [List.filter_cons, hx, hseen]
        simp only [mergeLoop, hx, hhash, hseen, if_true, Bool.false_eq_true, if_false]
        rw [ih (x :: seen) (x :: acc) hrest, hcons]
        rw [dedupFirst]
        have hff : (rest.filter (fun k => pyTruthy k && ! List.elem k seen)).filter
              (fun y => ! (y == x)) =
            rest.filter (fun k => pyTruthy k && ! List.elem k (x :: seen)) := by
          rw [List.filter_filter]
          apply List.filter_congr
          intro k _
          cases hkx : (k == x) <;> cases hpt : pyTruthy k <;>
            cases hel : List.elem k seen <;> simp [List.elem, hkx, hpt, hel]
        rw [hff]
        simp
    · have hx2 : pyTruthy x = false := by simpa using hx
      have hfe : (x :: rest).filter (fun k => pyTruthy k && ! List.elem k seen) =
          rest.filter (fun k => pyTruthy k && ! List.elem k seen) := by
        simp [List.filter_cons, hx2]
      simp only [mergeLoop, hx2, Bool.false_eq_true, if_false]
      rw [ih seen acc hrest, hfe]

/-- Claim C7: merging the keywords and sections lists concatenates them in
order, discards falsy entries, and removes duplicates keeping the first
occurrence (for lists whose truthy entries are hashable); in particular
merging `["b","a","b"]` with `["a","c"]` yields `["b","a","c"]`. -/
theorem C7_keyword_merge_first_occurrence (ks ss : List Json)
    (hh : ∀ k ∈ ks ++ ss, pyTruthy k = true → isHashable k = true) :
    all_keywords (.arr ks) (.arr ss) = .ok (specC7Merge ks ss) ∧
    all_keywords (.arr [.str "b", .str "a", .str "b"]) (.arr [.str "a", .str "c"]) =
      .ok [.str "b", .str "a", .str "c"] := by
  constructor
  · simp only [all_keywords, keywordConcat]
    rw [mergeLoop_spec (ks ++ ss) [] [] hh]
    simp only [List.reverse_nil, List.nil_append, specC7Merge]
    congr 2
    apply List.filter_congr
    intro k _
    simp [List.elem]
  · simp [all_keywords, keywordConcat, mergeLoop, List.elem, BEq.beq, Json.beq,
      pyTruthy, isHashable]

/-- Witness for C7 at the claim's concrete example lists. -/
theorem C7_keyword_merge_first_occurrence_witness :
    (∀ k ∈ ([Json.str "b", Json.str "a", Json.str "b"] ++ [Json.str "a", Json.str "c"]),
        pyTruthy k = true → isHashable k = true) ∧
    all_keywords (.arr [.str "b", .str "a", .str "b"]) (.arr [.str "a", .str "c"]) =
      .ok [.str "b", .str "a", .str "c"] := by
  have hh : ∀ k ∈ ([Json.str "b", Json.str "a", Json.str "b"] ++
      [Json.str "a", Json.str "c"]), pyTruthy k = true → isHashable k = true := by
    intro k hk
    simp only [List.mem_append, List.mem_cons, List.not_mem_nil, or_false] at hk
    rcases hk with (h | h | h) | (h | h) <;> subst h <;> intro _ <;> rfl
  exact ⟨hh, (C7_keyword_merge_first_occurrence [Json.str "b", Json.str "a", Json.str "b"]
    [Json.str "a", Json.str "c"] hh).2⟩
theorem filtered_content_eq : ∀ xs : List Json, filtered_content xs = extractFromList xs := by
  intro xs
  induction xs with
  | nil => rfl
  | cons x rest ih => simp only [filtered_content, extractFromList, ih]

/-- Claim C6 (amended): for a record whose content field is a list,
`article_text` equals the markdownified entity-decoded concatenation of
the prologue, a single space separator, and the depth-first extraction of
the content list (`extract_text`, which drops empty extractions before
space-joining). -/
theorem C6_amended_article_text_assembly (kvs : Fields) (xs : List Json) (p : String)
    (unescape mdify : String → String)
    (hc : jgetD kvs "content" (.arr []) = .arr xs)
    (hp : pyOr (jgetN kvs "prologue") (.str "") = .str p) :
    textOf kvs unescape mdify =
      .ok (mdify (unescape (p ++ " " ++ extract_text (.arr xs)))) := by
  unfold textOf
  rw [hc, hp]
  simp only [pyIter]
  rw [show extract_text (.arr xs) = String.intercalate " " (extractFromList xs) by
    simp [extract_text]]
  rw [filtered_content_eq]

/-- Counterexample to C6 as stated: with identity decode/markdown
functions, content `["a"]` and no prologue, the code produces `" a"`
(prologue joined with a space separator) while the claim's formula,
transcribed in `specC6ArticleText`, produces `"a"`. -/
theorem C6_counterexample :
    textOf [("content", Json.arr [Json.str "a"])] id id = .ok " a" ∧
    specC6ArticleText [("content", Json.arr [Json.str "a"])] id id = "a" ∧
    (" a" : String) ≠ "a" := by
  refine ⟨?_, ?_, by decide⟩
  · simp [textOf, jgetD, jgetN, jget, pyOr, pyTruthy, pyIter, filtered_content,
      extract_text, extractFromList]
    rfl
  · simp [specC6ArticleText, specC6Text, specC6List, jgetD, jgetN, jget, pyOr, pyTruthy]
    rfl

/-- Witness for the amended C6 at a concrete one-element content list. -/
theorem C6_amended_article_text_assembly_witness :
    jgetD [("content", Json.arr [Json.str "hi"])] "content" (.arr []) =
      Json.arr [Json.str "hi"] ∧
    textOf [("content", Json.arr [Json.str "hi"])] id id =
      .ok (id (id ("" ++ " " ++ extract_text (.arr [Json.str "hi"])))) :=
  ⟨rfl, C6_amended_article_text_assembly [("content", Json.arr [Json.str "hi"])] [Json.str "hi"] ""
    id id rfl rfl⟩

/-- Claim C5 (amended): the ISO-8601 field is used whenever truthy; the
RFC-2822 field is consulted only when the ISO field is absent or falsy;
when the chosen textual value fails to parse the `utc` fallback applies
(truthy `utc` convertible by `int()`, divided by 1000); when neither
textual field is truthy the timestamp is null without consulting `utc`;
in every case the record is produced without error. -/
theorem C5_amended_timestamp_resolution (kvs : Fields) (st : Fields) (parseDate : String → Option Int)
    (hst : jgetD kvs "starttime" (.obj []) = .obj st) :
    (∀ s t, jgetN st "iso8601" = .str s → s ≠ "" → parseDate s = some t →
      timestampOf kvs parseDate = .ok (.str s, some t)) ∧
    (∀ s, jgetN st "iso8601" = .str s → s ≠ "" → parseDate s = none →
      timestampOf kvs parseDate = .ok (.str s, utcFallback st)) ∧
    (pyTruthy (jgetN st "iso8601") = false →
      ∀ s t, jgetN st "rfc2822" = .str s → s ≠ "" → parseDate s = some t →
        timestampOf kvs parseDate = .ok (.str s, some t)) ∧
    (pyTruthy (jgetN st "iso8601") = false → pyTruthy (jgetN st "rfc2822") = false →
      timestampOf kvs parseDate =
        .ok (pyOr (jgetN st "iso8601") (jgetN st "rfc2822"), none)) := by
  refine ⟨?_, ?_, ?_, ?_⟩
  · intro s t hs hne hp
    unfold timestampOf
    rw [hst]
    simp [pyOr, hs, pyTruthy, hne, hp]
  · intro s hs hne hp
    unfold timestampOf
    rw [hst]
    simp [pyOr, hs, pyTruthy, hne, hp]
  · intro hiso s t hs hne hp
    unfold timestampOf
    rw [hst]
    simp only [pyOr, hiso, Bool.false_eq_true, if_false, hs]
    simp [pyTruthy, hne, hp]
  · intro hiso hrfc
    unfold timestampOf
    rw [hst]
    simp only [pyOr, hiso, Bool.false_eq_true, if_false]
    simp [hrfc]

/-- Counterexample to C5 as stated: with an unparsable ISO value and a
parsable RFC value, the code returns a null timestamp (the RFC field is
never consulted once a truthy ISO value is chosen), while the claim's
formula, transcribed in `specC5Timestamp`, returns the RFC parse. -/
theorem C5_counterexample :
    timestampOf
        [("starttime", Json.obj [("iso8601", Json.str "bad"), ("rfc2822", Json.str "good")])]
        (fun s => if s = "good" then some 1704067200 else none) =
      .ok (Json.str "bad", none) ∧
    specC5Timestamp (fun s => if s = "good" then some 1704067200 else none)
        [("iso8601", Json.str "bad"), ("rfc2822", Json.str "good")] = some 1704067200 ∧
    (none : Option Int) ≠ some 1704067200 := ⟨rfl, rfl, by decide⟩

/-- Witness for the amended C5 at a concrete parsable ISO field. -/
theorem C5_amended_timestamp_resolution_witness :
    jgetD [("starttime", Json.obj [("iso8601", Json.str "2024")])] "starttime" (.obj []) =
      Json.obj [("iso8601", Json.str "2024")] ∧
    timestampOf [("starttime", Json.obj [("iso8601", Json.str "2024")])]
        (fun _ => some 1704067200) = .ok (Json.str "2024", some 1704067200) :=
  ⟨rfl, (C5_amended_timestamp_resolution [("starttime", Json.obj [("iso8601", Json.str "2024")])]
      [("iso8601", Json.str "2024")] (fun _ => some 1704067200) rfl).1
    "2024" 1704067200 rfl (by decide) rfl⟩
theorem resolveObjName_wf (o : Fields)
    (h1 : wfNameField o "full_name" = true) (h2 : wfFmtField o "first_name" = true)
    (h3 : wfFmtField o "last_name" = true) (h4 : wfNameField o "screen_name" = true) :
    resolveObjName o = .ok ((specC4Resolve (.obj o)).map Json.str) := by
  have hfn : pyScalarFormat (jgetD o "first_name" (.str "")) =
      some (match jget o "first_name" with | some (.str s) => s | _ => "") := by
    unfold wfFmtField at h2
    cases hf : jget o "first_name" with
    | none => simp [jgetD, hf, pyScalarFormat]
    | some v =>
      rw [hf] at h2
      cases v <;> simp_all [jgetD, pyScalarFormat]
  have hln : pyScalarFormat (jgetD o "last_name" (.str "")) =
      some (match jget o "last_name" with | some (.str s) => s | _ => "") := by
    unfold wfFmtField at h3
    cases hf : jget o "last_name" with
    | none => simp [jgetD, hf, pyScalarFormat]
    | some v =>
      rw [hf] at h3
      cases v <;> simp_all [jgetD, pyScalarFormat]
  have hsn : (if pyTruthy (jgetN o "screen_name") = true
        then some (jgetN o "screen_name") else none) =
      Option.map Json.str (match jget o "screen_name" with
        | some (.str s) => if s ≠ "" then some s else none
        | _ => none) := by
    unfold wfNameField at h4
    cases hs : jget o "screen_name" with
    | none => simp [jgetN, hs, pyTruthy]
    | some v =>
      rw [hs] at h4
      cases v <;> simp_all [jgetN, pyTruthy]
      rename_i s
      by_cases hse : s = "" <;> simp [hse]
  have htail : (match pyScalarFormat (jgetD o "first_name" (.str "")),
           pyScalarFormat (jgetD o "last_name" (.str "")) with
       | some a, some b =>
         let combined := pyStrip (a ++ " " ++ b)
         if combined ≠ "" then Except.ok (some (Json.str combined))
         else
           let sn := jgetN o "screen_name"
           Except.ok (if pyTruthy sn then some sn else none)
       | _, _ => (Except.error () : Except Unit (Option Json))) =
      .ok ((specC4FirstLast o).map Json.str) := by
    rw [hfn, hln]
    unfold specC4FirstLast
    by_cases hcomb : pyStrip
        ((match jget o "first_name" with | some (.str s) => s | _ => "") ++ " " ++
         (match jget o "last_name" with | some (.str s) => s | _ => "")) = ""
    · simp only [hcomb, ne_eq, not_true_eq_false, if_false, reduceIte]
      rw [hsn]
    · simp [hcomb]
  unfold resolveObjName specC4Resolve
  unfold wfNameField at h1
  cases hf : jget o "full_name" with
  | none =>
    simp only [jgetN, hf, Option.getD_none, pyTruthy, Bool.false_eq_true, if_false]
    exact htail
  | some v =>
    rw [hf] at h1
    cases v with
    | null =>
      simp only [jgetN, hf, Option.getD_some, pyTruthy, Bool.false_eq_true, if_false]
      exact htail
    | str s =>
      by_cases hse : s = ""
      · subst hse
        have hb : pyTruthy (Json.str "") = false := rfl
        simp only [jgetN, hf, Option.getD_some, hb, Bool.false_eq_true, if_false]
        exact htail
      · simp [jgetN, hf, pyTruthy, hse]
    | bool b => simp at h1
    | num s2 => simp at h1
    | arr xs => simp at h1
    | obj kvs2 => simp at h1
theorem authorNamesOf_wf (items : List Json) (hwf : items.all wfAuthorEntry = true) :
    authorNamesOf items = .ok ((items.filterMap specC4Resolve).map Json.str) := by
  induction items with
  | nil => rfl
  | cons x rest ih =>
    rw [List.all_cons, Bool.and_eq_true] at hwf
    obtain ⟨hx, hrest⟩ := hwf
    cases x with
    | str s => simp [authorNamesOf, List.filterMap_cons, specC4Resolve, Except.map, ih hrest]
    | obj o =>
      unfold wfAuthorEntry at hx
      simp only [Bool.and_eq_true] at hx
      obtain ⟨⟨⟨hx1, hx2⟩, hx3⟩, hx4⟩ := hx
      have hres := resolveObjName_wf o hx1 hx2 hx3 hx4
      simp only [authorNamesOf, hres, List.filterMap_cons]
      cases hspec : specC4Resolve (.obj o) with
      | none => simp [ih hrest]
      | some n => simp [Except.map, ih hrest]
    | null => simp [authorNamesOf, List.filterMap_cons, specC4Resolve, ih hrest]
    | bool b => simp [authorNamesOf, List.filterMap_cons, specC4Resolve, ih hrest]
    | num s => simp [authorNamesOf, List.filterMap_cons, specC4Resolve, ih hrest]
    | arr xs => simp [authorNamesOf, List.filterMap_cons, specC4Resolve, ih hrest]

theorem strsOf_map (ss : List String) : strsOf (ss.map Json.str) = some ss := by
  induction ss with
  | nil => rfl
  | cons a t ih => simp [strsOf, ih]

theorem pyJoinStrs_map (sep : String) (ss : List String) :
    pyJoinStrs sep (ss.map Json.str) = .ok (String.intercalate sep ss) := by
  unfold pyJoinStrs
  rw [strsOf_map]

/-- Claim C4 (amended): for a well-formed structured authors list, the
author is the `", "`-join of the resolved names (full name, else joined
first+last, else screen name, per entry); the byline is consulted **only
when the authors value itself is falsy** — a non-empty authors list that
yields no names gives a null author. -/
theorem C4_amended_author_resolution (kvs : Fields) (items : List Json)
    (hA : jgetD kvs "authors" (.arr []) = .arr items)
    (hwf : items.all wfAuthorEntry = true) :
    authorOf kvs = .ok (specC4AuthorAmended items (jgetD kvs "byline" (.str ""))) := by
  unfold authorOf specC4AuthorAmended
  rw [hA]
  by_cases hne : items.isEmpty
  · have hnil : items = [] := List.isEmpty_iff.mp hne
    subst hnil
    simp only [pyTruthy, List.isEmpty_nil, Bool.not_true, Bool.false_eq_true, if_false,
      if_true, reduceIte]
    split <;> rfl
  · have htr : pyTruthy (Json.arr items) = true := by simp [pyTruthy, hne]
    simp only [htr, if_true, pyIter, reduceIte]
    rw [authorNamesOf_wf items hwf]
    simp only [if_neg hne]
    cases hnames : items.filterMap specC4Resolve with
    | nil => simp
    | cons n t =>
      simp only [List.map_cons, List.isEmpty_cons, Bool.false_eq_true, if_false]
      have hj := pyJoinStrs_map ", " (n :: t)
      simp only [List.map_cons] at hj
      rw [hj]
/-- Counterexample to C4 as stated: for a non-empty authors list whose
single entry yields no name, the code returns a null author without
consulting the byline, while the claim's resolution, transcribed in
`specC4Author`, falls back to the byline `"B"`. -/
theorem C4_counterexample :
    authorOf [("authors", Json.arr [Json.obj []]), ("byline", Json.str "B")] = .ok none ∧
    specC4Author [("authors", Json.arr [Json.obj []]), ("byline", Json.str "B")] =
      some (Json.str "B") ∧
    (Except.ok none : Except Unit (Option Json)) ≠ .ok (some (Json.str "B")) :=
  ⟨rfl, rfl, by simp⟩

/-- Witness for the amended C4 at a concrete one-name authors list. -/
theorem C4_amended_author_resolution_witness :
    jgetD [("authors", Json.arr [Json.str "Jane"]), ("byline", Json.str "x")] "authors"
        (.arr []) = Json.arr [Json.str "Jane"] ∧
    authorOf [("authors", Json.arr [Json.str "Jane"]), ("byline", Json.str "x")] =
      .ok (specC4AuthorAmended [Json.str "Jane"]
        (jgetD [("authors", Json.arr [Json.str "Jane"]), ("byline", Json.str "x")]
          "byline" (.str ""))) :=
  ⟨rfl, C4_amended_author_resolution [("authors", Json.arr [Json.str "Jane"]), ("byline", Json.str "x")]
    [Json.str "Jane"] rfl rfl⟩

/-- Witness for C8 at a concrete image-typed record. -/
theorem C8_image_record_skipped_witness :
    jget [("type", Json.str "image"), ("url", Json.str "u")] "type" =
      some (Json.str "image") ∧
    processArticle ⟨"d", 0, id, id, fun _ => none, fun _ _ => true⟩ ([], Stats.init)
        (.obj [("type", Json.str "image"), ("url", Json.str "u")]) =
      ([], { Stats.init with articles_skipped_image_type :=
               Stats.init.articles_skipped_image_type + 1 }) :=
  ⟨rfl, (C8_image_record_skipped ⟨"d", 0, id, id, fun _ => none, fun _ _ => true⟩
    [] Stats.init [("type", Json.str "image"), ("url", Json.str "u")] [] rfl).1⟩

/-- Witness for C9 at a concrete record with no `url` field. -/
theorem C9_missing_url_counted_error_witness :
    isImage [("title", Json.str "t")] = false ∧
    processArticle ⟨"d", 0, id, id, fun _ => none, fun _ _ => true⟩ ([], Stats.init)
        (.obj [("title", Json.str "t")]) =
      ([], { Stats.init with errors := Stats.init.errors + 1 }) :=
  ⟨rfl, (C9_missing_url_counted_error ⟨"d", 0, id, id, fun _ => none, fun _ _ => true⟩
    [] Stats.init [("title", Json.str "t")] [] rfl (Or.inl rfl)).1⟩
